import Mathlib

/-!
Verification of the encoder-decoder batch-metadata builder of this vLLM
fragment (the `EncoderDecoderModelRunner` exercised by
`src/tests/worker/test_encoder_decoder_model_runner.py`).

The repository fragment ships the tests and an example but not the runner
itself, so the builder (`_prepare_model_input`,
`_prepare_encoder_model_input`) is modelled from the spec (sections 4.3
and 6 of `spec.md`), with every behaviour that the shipped tests pin down
taken from the tests.  One decoder sequence per group is modelled, which
is the shape every shipped test uses (`seq_data={0: seq_data}`).
-/

set_option autoImplicit false

namespace VllmEncDec

/-- `vllm.sequence.SequenceData`: one token stream, a monotonically growing
token id list.  Only the parts the metadata builder reads are modelled. -/
structure SequenceData where
  token_ids : List Nat
deriving DecidableEq

/-- `SequenceData.get_len()`: number of tokens in the stream. -/
def SequenceData.get_len (d : SequenceData) : Nat := d.token_ids.length

/-- `vllm.sequence.SequenceGroupMetadata`, restricted to one decoder
sequence per group (the shape used by every shipped test).  For
encoder-decoder groups `encoder_seq_data` and `cross_block_table` are
present; for decoder-only groups they are absent. -/
structure SequenceGroupMetadata where
  request_id : String
  is_prompt : Bool
  seq_data : SequenceData
  block_table : List Nat
  encoder_seq_data : Option SequenceData
  cross_block_table : Option (List Nat)
deriving DecidableEq

/-- Sum of a list of naturals (Python `sum`). -/
def sumList : List Nat → Nat
  | [] => 0
  | x :: xs => x + sumList xs

/-- Maximum of a list of naturals, `0` for the empty list (the builder
uses `max(..., default=0)` semantics for the empty side of a batch). -/
def maxList : List Nat → Nat
  | [] => 0
  | x :: xs => max x (maxList xs)

/-- Start-location prefix-sum array: `startLocs a [x₁, …, xₙ]` is
`[a, a+x₁, a+x₁+x₂, …, a+x₁+⋯+xₙ]` (the `query_start_loc` /
`seq_start_loc` construction of the builder). -/
def startLocs (acc : Nat) : List Nat → List Nat
  | [] => [acc]
  | x :: xs => acc :: startLocs (acc + x) xs

/-- Modelled from the spec: "Slot Mapping: for a contiguous run of tokens,
the flat per-token physical slot index (block_id * block_size +
offset_within_block)".  A position past the end of the block table maps to
the pad slot id `-1` (vLLM `_PAD_SLOT_ID`). -/
def slotOf (block_size : Nat) (bt : List Nat) (pos : Nat) : Int :=
  match bt[pos / block_size]? with
  | some b => ((b * block_size + pos % block_size : Nat) : Int)
  | none => -1

/-- Width of the uniform (padded) block table: length of the longest row. -/
def maxRowLen (rows : List (List Nat)) : Nat := maxList (rows.map List.length)

/-- Modelled from the spec: "block tables materialized as a uniform-width
table (padded with an empty/sentinel value) sized to the longest
sequence's table in the batch".  The pad value is `0`
(vLLM `make_tensor_with_pad` pads with zeros). -/
def padRows (rows : List (List Nat)) : List (List Nat) :=
  rows.map (fun r => r ++ List.replicate (maxRowLen rows - r.length) 0)

/-- Per-group number of query tokens this step: the whole prompt for a
prefill group, exactly one token for a decode group. -/
def groupQueryLen (g : SequenceGroupMetadata) : Nat :=
  if g.is_prompt then g.seq_data.get_len else 1

/-- Per-group total decoder sequence length. -/
def groupSeqLen (g : SequenceGroupMetadata) : Nat := g.seq_data.get_len

/-- Per-group context length so far: `0` for a fresh prefill, all already
cached tokens (total length minus the one token decoded this step) for a
decode group. -/
def groupContextLen (g : SequenceGroupMetadata) : Nat :=
  if g.is_prompt then 0 else g.seq_data.get_len - 1

/-- Per-group flat decoder input token ids: the whole prompt for prefill,
the last produced token for decode. -/
def groupInputTokens (g : SequenceGroupMetadata) : List Nat :=
  if g.is_prompt then g.seq_data.token_ids else [g.seq_data.token_ids.getLastD 0]

/-- Per-group flat decoder input positions. -/
def groupInputPositions (g : SequenceGroupMetadata) : List Nat :=
  if g.is_prompt then List.range g.seq_data.get_len else [g.seq_data.get_len - 1]

/-- Per-group decoder slot mapping, one slot per batched query token,
computed from the group's decoder block table. -/
def groupSlotMapping (block_size : Nat) (g : SequenceGroupMetadata) : List Int :=
  if g.is_prompt then
    (List.range g.seq_data.get_len).map (slotOf block_size g.block_table)
  else
    [slotOf block_size g.block_table (g.seq_data.get_len - 1)]

/-- Per-group row of the decoder block table in the built metadata: empty
for a prefill group (the tests pin `block_tables` to all-empty rows for a
prompt batch), the group's decoder block table for a decode group. -/
def groupBlockTableRow (g : SequenceGroupMetadata) : List Nat :=
  if g.is_prompt then [] else g.block_table

/-- Per-group encoder sequence length; `0` for a decoder-only group. -/
def groupEncoderSeqLen (g : SequenceGroupMetadata) : Nat :=
  match g.encoder_seq_data with
  | some d => d.get_len
  | none => 0

/-- Per-group flat encoder input token ids: the encoder prompt during
prefill, nothing during decode (encoder tokens are fed to the compute
engine only once, while prefilling). -/
def groupEncoderTokens (g : SequenceGroupMetadata) : List Nat :=
  if g.is_prompt then
    match g.encoder_seq_data with
    | some d => d.token_ids
    | none => []
  else []

/-- Per-group flat encoder input positions. -/
def groupEncoderPositions (g : SequenceGroupMetadata) : List Nat :=
  if g.is_prompt then List.range (groupEncoderSeqLen g) else []

/-- Per-group cross-attention slot mapping, one slot per encoder token
during prefill (computed from the group's cross-attention block table),
empty during decode. -/
def groupCrossSlotMapping (block_size : Nat) (g : SequenceGroupMetadata) : List Int :=
  if g.is_prompt then
    (List.range (groupEncoderSeqLen g)).map
      (slotOf block_size (g.cross_block_table.getD []))
  else []

/-- Per-group row of the cross-attention block table in the built
metadata: empty for a prefill group (pinned by the shipped prompt test),
the group's cross-attention block table for a decode group. -/
def groupCrossBlockTableRow (g : SequenceGroupMetadata) : List Nat :=
  if g.is_prompt then [] else g.cross_block_table.getD []

/-- The attention metadata handed to the compute engine for one step
(decoder fields plus the encoder / cross-attention fields that
`_prepare_encoder_model_input` fills in). -/
structure AttentionMetadata where
  num_prefills : Nat
  num_prefill_tokens : Nat
  num_decode_tokens : Nat
  slot_mapping : List Int
  seq_lens : List Nat
  max_prefill_seq_len : Nat
  max_decode_seq_len : Nat
  query_start_loc : List Nat
  seq_start_loc : List Nat
  context_lens : List Nat
  block_tables : List (List Nat)
  use_cuda_graph : Bool
  encoder_seq_lens : List Nat
  max_encoder_seq_len : Nat
  num_encoder_tokens : Nat
  cross_slot_mapping : List Int
  cross_block_tables : List (List Nat)
deriving DecidableEq

/-- An all-empty metadata record, used only as an `Option.getD` default
when extracting the metadata of a batch already known to be non-empty. -/
def emptyAttentionMetadata : AttentionMetadata :=
  { num_prefills := 0, num_prefill_tokens := 0, num_decode_tokens := 0
    slot_mapping := [], seq_lens := [], max_prefill_seq_len := 0
    max_decode_seq_len := 0, query_start_loc := [], seq_start_loc := []
    context_lens := [], block_tables := [], use_cuda_graph := false
    encoder_seq_lens := [], max_encoder_seq_len := 0, num_encoder_tokens := 0
    cross_slot_mapping := [], cross_block_tables := [] }

/-- The decoder model input returned by `_prepare_model_input`. -/
structure ModelInput where
  input_tokens : List Nat
  input_positions : List Nat
  attn_metadata : Option AttentionMetadata
  seq_lens : List Nat
  slot_mapping : List Int
deriving DecidableEq

/-- The encoder model input returned by `_prepare_encoder_model_input`. -/
structure EncoderModelInput where
  input_tokens : List Nat
  input_positions : List Nat
deriving DecidableEq

/-- The configuration the builder consults: the fixed block size, whether
replayable (CUDA-graph) execution is disabled, and the configured maximum
batch size eligible for replay. -/
structure RunnerConfig where
  block_size : Nat
  enforce_eager : Bool
  max_capture_batch_size : Nat
deriving DecidableEq

/-- Flat decoder slot-mapping array for the admitted set: concatenation
of the per-group slot mappings in admitted order. -/
def decoderSlotMapping (cfg : RunnerConfig)
    (groups : List SequenceGroupMetadata) : List Int :=
  (groups.map (groupSlotMapping cfg.block_size)).flatten

/-- Flat decoder input-token array for the admitted set. -/
def decoderInputTokens (groups : List SequenceGroupMetadata) : List Nat :=
  (groups.map groupInputTokens).flatten

/-- Flat decoder input-position array for the admitted set. -/
def decoderInputPositions (groups : List SequenceGroupMetadata) : List Nat :=
  (groups.map groupInputPositions).flatten

/-- Modelled from the spec: the decoder attention metadata built by
`EncoderDecoderModelRunner._prepare_model_input` (absent from the
fragment) for a non-empty admitted set, before the encoder side is
filled in. -/
def buildDecoderMeta (cfg : RunnerConfig)
    (groups : List SequenceGroupMetadata) : AttentionMetadata :=
  { num_prefills := (groups.filter (fun g => g.is_prompt)).length
    num_prefill_tokens :=
      sumList ((groups.filter (fun g => g.is_prompt)).map groupQueryLen)
    num_decode_tokens := (groups.filter (fun g => !g.is_prompt)).length
    slot_mapping := decoderSlotMapping cfg groups
    seq_lens := groups.map groupSeqLen
    max_prefill_seq_len :=
      maxList ((groups.filter (fun g => g.is_prompt)).map groupSeqLen)
    max_decode_seq_len :=
      maxList ((groups.filter (fun g => !g.is_prompt)).map groupSeqLen)
    query_start_loc := startLocs 0 (groups.map groupQueryLen)
    seq_start_loc := startLocs 0 (groups.map groupSeqLen)
    context_lens := groups.map groupContextLen
    block_tables := padRows (groups.map groupBlockTableRow)
    use_cuda_graph := (groups.filter (fun g => g.is_prompt)).isEmpty
      && !cfg.enforce_eager
      && decide (groups.length ≤ cfg.max_capture_batch_size)
    encoder_seq_lens := [], max_encoder_seq_len := 0
    num_encoder_tokens := 0, cross_slot_mapping := []
    cross_block_tables := [] }

/-- Modelled from the spec: the Batch Metadata Builder's decoder side
(`EncoderDecoderModelRunner._prepare_model_input`, absent from the
fragment).  For the admitted set it builds the flat token-id and position
arrays (concatenation across groups in admitted order), the slot mapping
(one entry per flat token), per-sequence lengths, max prefill/decode
lengths, query/sequence start-location prefix sums, context lengths, the
padded block tables and the replay-eligibility flag; an empty admitted
set yields empty arrays and an absent metadata object. -/
def prepare_model_input (cfg : RunnerConfig)
    (groups : List SequenceGroupMetadata) : ModelInput :=
  if groups.isEmpty then
    { input_tokens := [], input_positions := [], attn_metadata := none
      seq_lens := [], slot_mapping := [] }
  else
    { input_tokens := decoderInputTokens groups
      input_positions := decoderInputPositions groups
      attn_metadata := some (buildDecoderMeta cfg groups)
      seq_lens := groups.map groupSeqLen
      slot_mapping := decoderSlotMapping cfg groups }

/-- Modelled from the spec: the Batch Metadata Builder's encoder side
(`EncoderDecoderModelRunner._prepare_encoder_model_input`, absent from
the fragment).  Given the admitted set and the decoder attention
metadata, it returns the encoder token/position arrays and the metadata
updated with the encoder sequence-length statistics, the cross-attention
slot mapping and the padded cross-attention block tables. -/
def prepare_encoder_model_input (cfg : RunnerConfig)
    (groups : List SequenceGroupMetadata) (meta : AttentionMetadata) :
    EncoderModelInput × AttentionMetadata :=
  let encoderSeqLens := groups.map groupEncoderSeqLen
  ({ input_tokens := (groups.map groupEncoderTokens).flatten
     input_positions := (groups.map groupEncoderPositions).flatten },
   { meta with
     encoder_seq_lens := encoderSeqLens
     max_encoder_seq_len := maxList encoderSeqLens
     num_encoder_tokens := sumList encoderSeqLens
     cross_slot_mapping := (groups.map (groupCrossSlotMapping cfg.block_size)).flatten
     cross_block_tables := padRows (groups.map groupCrossBlockTableRow) })

/-- The attention metadata as the tests observe it: built by
`prepare_model_input` and then completed by
`prepare_encoder_model_input` (absent entirely for an empty batch). -/
def buildAttnMetadata (cfg : RunnerConfig)
    (groups : List SequenceGroupMetadata) : Option AttentionMetadata :=
  match (prepare_model_input cfg groups).attn_metadata with
  | none => none
  | some m => some (prepare_encoder_model_input cfg groups m).2

/-- The encoder model input as the tests observe it. -/
def buildEncoderModelInput (cfg : RunnerConfig)
    (groups : List SequenceGroupMetadata) : EncoderModelInput :=
  match (prepare_model_input cfg groups).attn_metadata with
  | none => { input_tokens := [], input_positions := [] }
  | some m => (prepare_encoder_model_input cfg groups m).1

/-! ### Helper lemmas about the list combinators of the builder -/

theorem sumList_cons (x : Nat) (xs : List Nat) :
    sumList (x :: xs) = x + sumList xs := rfl

theorem maxList_cons (x : Nat) (xs : List Nat) :
    maxList (x :: xs) = max x (maxList xs) := rfl

theorem le_maxList_of_mem {x : Nat} {xs : List Nat} (h : x ∈ xs) :
    x ≤ maxList xs := by
  induction xs with
  | nil => cases h
  | cons a l ih =>
    rcases List.mem_cons.mp h with rfl | h'
    · exact Nat.le_max_left _ _
    · exact Nat.le_trans (ih h') (Nat.le_max_right _ _)

theorem maxList_eq_zero {xs : List Nat} (h : ∀ x ∈ xs, x = 0) :
    maxList xs = 0 := by
  induction xs with
  | nil => rfl
  | cons a l ih =>
    rw [maxList_cons, h a (List.mem_cons_self a l),
      ih (fun x hx => h x (List.mem_cons_of_mem a hx))]
    rfl

theorem flatten_map_length {α β : Type} (f : α → List β) (l : List α) :
    ((l.map f).flatten).length = sumList (l.map fun x => (f x).length) := by
  induction l with
  | nil => rfl
  | cons a l ih => simp [List.flatten_cons, sumList_cons, ih]

theorem flatten_map_eq_nil {α β : Type} (f : α → List β) (l : List α)
    (h : ∀ x ∈ l, f x = []) : (l.map f).flatten = [] := by
  induction l with
  | nil => rfl
  | cons a l ih =>
    rw [List.map_cons, List.flatten_cons, h a (List.mem_cons_self a l),
      ih (fun x hx => h x (List.mem_cons_of_mem a hx)), List.nil_append]

theorem sumList_map_congr {α : Type} {l : List α} {f g : α → Nat}
    (h : ∀ x ∈ l, f x = g x) : sumList (l.map f) = sumList (l.map g) := by
  rw [List.map_congr_left h]

theorem startLocs_ne_nil (a : Nat) (xs : List Nat) : startLocs a xs ≠ [] := by
  cases xs <;> simp [startLocs]

theorem startLocs_length (xs : List Nat) :
    ∀ a, (startLocs a xs).length = xs.length + 1 := by
  induction xs with
  | nil => intro a; rfl
  | cons x xs ih =>
    intro a
    show (a :: startLocs (a + x) xs).length = (x :: xs).length + 1
    simp [ih (a + x)]

theorem startLocs_head? (a : Nat) (xs : List Nat) :
    (startLocs a xs).head? = some a := by
  cases xs <;> rfl

theorem startLocs_getLast? (xs : List Nat) :
    ∀ a, (startLocs a xs).getLast? = some (a + sumList xs) := by
  induction xs with
  | nil => intro a; simp [startLocs, sumList]
  | cons x xs ih =>
    intro a
    show (a :: startLocs (a + x) xs).getLast? = some (a + sumList (x :: xs))
    cases hxs : startLocs (a + x) xs with
    | nil => exact absurd hxs (startLocs_ne_nil _ _)
    | cons y ys =>
      rw [List.getLast?_cons_cons, ← hxs, ih (a + x), sumList_cons,
        Nat.add_assoc]

theorem startLocs_chain_le (xs : List Nat) :
    ∀ a, List.Chain' (· ≤ ·) (startLocs a xs) := by
  induction xs with
  | nil => intro a; exact List.chain'_singleton a
  | cons x xs ih =>
    intro a
    show List.Chain' (· ≤ ·) (a :: startLocs (a + x) xs)
    refine List.chain'_cons'.mpr ⟨?_, ih (a + x)⟩
    intro y hy
    have hy' : a + x = y := by
      simpa [startLocs_head?] using hy
    omega

theorem startLocs_chain_lt (xs : List Nat) :
    (∀ x ∈ xs, 1 ≤ x) → ∀ a, List.Chain' (· < ·) (startLocs a xs) := by
  induction xs with
  | nil => intro _ a; exact List.chain'_singleton a
  | cons x xs ih =>
    intro h a
    show List.Chain' (· < ·) (a :: startLocs (a + x) xs)
    refine List.chain'_cons'.mpr
      ⟨?_, ih (fun y hy => h y (List.mem_cons_of_mem x hy)) (a + x)⟩
    intro y hy
    have hy' : a + x = y := by
      simpa [startLocs_head?] using hy
    have hx := h x (List.mem_cons_self x xs)
    omega

theorem mem_padRows_length {rows : List (List Nat)} {row : List Nat}
    (h : row ∈ padRows rows) : row.length = maxRowLen rows := by
  rcases List.mem_map.mp h with ⟨r, hr, rfl⟩
  have hle : r.length ≤ maxRowLen rows :=
    le_maxList_of_mem (List.mem_map.mpr ⟨r, hr, rfl⟩)
  simp [List.length_append, List.length_replicate, Nat.add_sub_cancel' hle]

/-! ### Extraction lemmas: relating the staged builders -/

theorem attn_some_ne_nil {cfg : RunnerConfig}
    {groups : List SequenceGroupMetadata} {m : AttentionMetadata}
    (hm : (prepare_model_input cfg groups).attn_metadata = some m) :
    groups ≠ [] := by
  intro h
  subst h
  simp [prepare_model_input] at hm

theorem attn_some_eq {cfg : RunnerConfig}
    {groups : List SequenceGroupMetadata} {m : AttentionMetadata}
    (hm : (prepare_model_input cfg groups).attn_metadata = some m) :
    m = buildDecoderMeta cfg groups := by
  by_cases h : groups.isEmpty
  · simp [prepare_model_input, h] at hm
  · simp [prepare_model_input, h] at hm
    exact hm.symm

theorem buildAttnMetadata_some_eq {cfg : RunnerConfig}
    {groups : List SequenceGroupMetadata} {m : AttentionMetadata}
    (hm : buildAttnMetadata cfg groups = some m) :
    m = (prepare_encoder_model_input cfg groups
          (buildDecoderMeta cfg groups)).2 ∧ groups ≠ [] := by
  unfold buildAttnMetadata at hm
  cases hmm : (prepare_model_input cfg groups).attn_metadata with
  | none => rw [hmm] at hm; cases hm
  | some m0 =>
    rw [hmm] at hm
    have h0 := attn_some_eq hmm
    subst h0
    refine ⟨?_, attn_some_ne_nil hmm⟩
    simpa using hm.symm

theorem buildEncoderModelInput_eq {cfg : RunnerConfig}
    {groups : List SequenceGroupMetadata} (h : groups ≠ []) :
    buildEncoderModelInput cfg groups =
      { input_tokens := (groups.map groupEncoderTokens).flatten
        input_positions := (groups.map groupEncoderPositions).flatten } := by
  have he : groups.isEmpty = false := by
    cases groups with
    | nil => exact absurd rfl h
    | cons a l => rfl
  unfold buildEncoderModelInput
  simp [prepare_model_input, he, prepare_encoder_model_input]

theorem sumList_map_one {α : Type} {l : List α} {f : α → Nat}
    (h : ∀ x ∈ l, f x = 1) : sumList (l.map f) = l.length := by
  induction l with
  | nil => rfl
  | cons a l ih =>
    rw [List.map_cons, sumList_cons, h a (List.mem_cons_self a l),
      ih (fun x hx => h x (List.mem_cons_of_mem a hx)), List.length_cons,
      Nat.add_comm]

theorem prepare_model_input_ne_nil_eq {cfg : RunnerConfig}
    {groups : List SequenceGroupMetadata} (h : groups ≠ []) :
    prepare_model_input cfg groups =
      { input_tokens := decoderInputTokens groups
        input_positions := decoderInputPositions groups
        attn_metadata := some (buildDecoderMeta cfg groups)
        seq_lens := groups.map groupSeqLen
        slot_mapping := decoderSlotMapping cfg groups } := by
  have he : groups.isEmpty = false := by
    cases groups with
    | nil => exact absurd rfl h
    | cons a l => rfl
  simp [prepare_model_input, he]

theorem groupSlotMapping_length (bs : Nat) (g : SequenceGroupMetadata) :
    (groupSlotMapping bs g).length = (groupInputTokens g).length := by
  cases hp : g.is_prompt <;>
    simp [groupSlotMapping, groupInputTokens, hp, SequenceData.get_len]

theorem groupCrossSlotMapping_length (bs : Nat) (g : SequenceGroupMetadata) :
    (groupCrossSlotMapping bs g).length = (groupEncoderTokens g).length := by
  cases hp : g.is_prompt
  · simp [groupCrossSlotMapping, groupEncoderTokens, hp]
  · cases ho : g.encoder_seq_data <;>
      simp [groupCrossSlotMapping, groupEncoderTokens, groupEncoderSeqLen,
        hp, ho, SequenceData.get_len]

/-! ### Concrete inputs used by the witnesses

These mirror the groups the shipped tests construct: decoder block table
`{0: [1]}`, cross block table `[2]`, small prompts, and the two
configurations (replay disabled by `enforce_eager`, or enabled). -/

def cfgEx : RunnerConfig :=
  { block_size := 16, enforce_eager := true, max_capture_batch_size := 256 }

def cfgGraphEx : RunnerConfig :=
  { block_size := 16, enforce_eager := false, max_capture_batch_size := 256 }

def prefillEx : SequenceGroupMetadata :=
  { request_id := "test_0", is_prompt := true, seq_data := ⟨[0, 1, 2]⟩
    block_table := [1], encoder_seq_data := some ⟨[0, 1]⟩
    cross_block_table := some [2] }

def decodeEx : SequenceGroupMetadata :=
  { request_id := "test_0", is_prompt := false, seq_data := ⟨[0, 1, 2]⟩
    block_table := [1], encoder_seq_data := some ⟨[0, 1]⟩
    cross_block_table := some [2] }

/-- The decoder attention metadata of a batch, extracted from the
`Option` with an all-empty default (used only at non-empty batches). -/
def decoderMetaD (cfg : RunnerConfig)
    (groups : List SequenceGroupMetadata) : AttentionMetadata :=
  ((prepare_model_input cfg groups).attn_metadata).getD emptyAttentionMetadata

/-- The completed (encoder side included) attention metadata of a batch,
extracted from the `Option` with an all-empty default. -/
def builtMetaD (cfg : RunnerConfig)
    (groups : List SequenceGroupMetadata) : AttentionMetadata :=
  (buildAttnMetadata cfg groups).getD emptyAttentionMetadata

/-! ### Claims -/

/-- Claim C1: for every prefill-only batch (all groups with `is_prompt`
true) the number of prefill tokens in the built decoder metadata equals
the sum of the per-sequence lengths and the decode-token count equals
zero; for every pure-decode batch exactly one token is batched per
sequence (both the decode-token count and the flat input-token array
length equal the number of sequences) and the prefill counts equal
zero. -/
theorem C1_token_counts (cfg : RunnerConfig)
    (groups : List SequenceGroupMetadata) (m : AttentionMetadata)
    (hm : (prepare_model_input cfg groups).attn_metadata = some m) :
    ((∀ g ∈ groups, g.is_prompt = true) →
      m.num_prefill_tokens = sumList (groups.map groupSeqLen)
      ∧ m.num_decode_tokens = 0)
    ∧ ((∀ g ∈ groups, g.is_prompt = false) →
      m.num_decode_tokens = groups.length
      ∧ m.num_prefills = 0
      ∧ m.num_prefill_tokens = 0
      ∧ (prepare_model_input cfg groups).input_tokens.length
          = groups.length) := by
  have hne := attn_some_ne_nil hm
  obtain rfl := attn_some_eq hm
  constructor
  · intro hp
    have h1 : groups.filter (fun g => g.is_prompt) = groups :=
      List.filter_eq_self.mpr hp
    have h2 : groups.filter (fun g => !g.is_prompt) = [] :=
      List.filter_eq_nil_iff.mpr (fun a ha => by simp [hp a ha])
    constructor
    · show sumList ((groups.filter (fun g => g.is_prompt)).map groupQueryLen)
        = sumList (groups.map groupSeqLen)
      rw [h1]
      exact sumList_map_congr
        (fun g hg => by simp [groupQueryLen, groupSeqLen, hp g hg])
    · show (groups.filter (fun g => !g.is_prompt)).length = 0
      rw [h2]
      rfl
  · intro hd
    have h1 : groups.filter (fun g => !g.is_prompt) = groups :=
      List.filter_eq_self.mpr (fun a ha => by simp [hd a ha])
    have h2 : groups.filter (fun g => g.is_prompt) = [] :=
      List.filter_eq_nil_iff.mpr (fun a ha => by simp [hd a ha])
    refine ⟨?_, ?_, ?_, ?_⟩
    · show (groups.filter (fun g => !g.is_prompt)).length = groups.length
      rw [h1]
    · show (groups.filter (fun g => g.is_prompt)).length = 0
      rw [h2]
      rfl
    · show sumList ((groups.filter (fun g => g.is_prompt)).map groupQueryLen) = 0
      rw [h2]
      rfl
    · rw [prepare_model_input_ne_nil_eq hne]
      show (decoderInputTokens groups).length = groups.length
      unfold decoderInputTokens
      rw [flatten_map_length]
      exact sumList_map_one
        (fun g hg => by simp [groupInputTokens, hd g hg])

theorem C1_witness :
    (decoderMetaD cfgEx [prefillEx]).num_prefill_tokens = 3
    ∧ (decoderMetaD cfgEx [prefillEx]).num_decode_tokens = 0
    ∧ (decoderMetaD cfgEx [decodeEx]).num_decode_tokens = 1
    ∧ (decoderMetaD cfgEx [decodeEx]).num_prefills = 0 := by
  have hmP : (prepare_model_input cfgEx [prefillEx]).attn_metadata
      = some (decoderMetaD cfgEx [prefillEx]) := rfl
  have hmD : (prepare_model_input cfgEx [decodeEx]).attn_metadata
      = some (decoderMetaD cfgEx [decodeEx]) := rfl
  have hP := (C1_token_counts cfgEx [prefillEx] _ hmP).1
    (fun g hg => by rw [List.mem_singleton.mp hg]; rfl)
  have hD := (C1_token_counts cfgEx [decodeEx] _ hmD).2
    (fun g hg => by rw [List.mem_singleton.mp hg]; rfl)
  exact ⟨by rw [hP.1]; rfl, hP.2, hD.1, hD.2.1⟩

/-- Claim C3: the replay-eligibility flag (`use_cuda_graph`) of the built
metadata is false whenever any sequence in the batch is doing prefill
work, and is true only for decode-only batches within the configured
size cap. -/
theorem C3_use_cuda_graph (cfg : RunnerConfig)
    (groups : List SequenceGroupMetadata) (m : AttentionMetadata)
    (hm : (prepare_model_input cfg groups).attn_metadata = some m) :
    ((∃ g ∈ groups, g.is_prompt = true) → m.use_cuda_graph = false)
    ∧ (m.use_cuda_graph = true →
        (∀ g ∈ groups, g.is_prompt = false)
        ∧ groups.length ≤ cfg.max_capture_batch_size) := by
  obtain rfl := attn_some_eq hm
  constructor
  · rintro ⟨g, hg, hp⟩
    have hfil : (groups.filter (fun g => g.is_prompt)).isEmpty = false := by
      rcases hfe : (groups.filter (fun g => g.is_prompt)) with _ | ⟨a, l⟩
      · exact absurd hp (List.filter_eq_nil_iff.mp hfe g hg)
      · rw [hfe]
        rfl
    show ((groups.filter (fun g => g.is_prompt)).isEmpty && _ && _) = false
    rw [hfil]
    rfl
  · intro h
    have h' : ((groups.filter (fun g => g.is_prompt)).isEmpty
        && !cfg.enforce_eager
        && decide (groups.length ≤ cfg.max_capture_batch_size)) = true := h
    simp only [Bool.and_eq_true, decide_eq_true_eq] at h'
    refine ⟨fun g hg => ?_, h'.2⟩
    have hnil : groups.filter (fun g => g.is_prompt) = [] :=
      List.isEmpty_iff.mp h'.1.1
    exact Bool.eq_false_iff.mpr (List.filter_eq_nil_iff.mp hnil g hg)

theorem C3_witness :
    (decoderMetaD cfgEx [prefillEx]).use_cuda_graph = false
    ∧ [decodeEx].length ≤ cfgGraphEx.max_capture_batch_size := by
  have hmP : (prepare_model_input cfgEx [prefillEx]).attn_metadata
      = some (decoderMetaD cfgEx [prefillEx]) := rfl
  have hmD : (prepare_model_input cfgGraphEx [decodeEx]).attn_metadata
      = some (decoderMetaD cfgGraphEx [decodeEx]) := rfl
  refine ⟨(C3_use_cuda_graph cfgEx [prefillEx] _ hmP).1
            ⟨prefillEx, List.mem_singleton.mpr rfl, rfl⟩, ?_⟩
  exact ((C3_use_cuda_graph cfgGraphEx [decodeEx] _ hmD).2 rfl).2

/-- Claim C4: preparing the model input for an empty admitted set yields
empty token, position, slot-mapping and sequence-length arrays and an
absent attention-metadata object. -/
theorem C4_empty_batch (cfg : RunnerConfig) :
    (prepare_model_input cfg []).input_tokens = []
    ∧ (prepare_model_input cfg []).input_positions = []
    ∧ (prepare_model_input cfg []).slot_mapping = []
    ∧ (prepare_model_input cfg []).seq_lens = []
    ∧ (prepare_model_input cfg []).attn_metadata = none :=
  ⟨rfl, rfl, rfl, rfl, rfl⟩

/-- Claim C5: for every non-empty batch, the query start-location
prefix-sum array of the built metadata has length `num_sequences + 1`,
starts at `0`, is non-decreasing (strictly increasing as soon as every
sequence is non-empty), and its last element equals the total number of
batched query tokens (full prompt length per prefill sequence, `1` per
decode sequence). -/
theorem C5_query_start_loc (cfg : RunnerConfig)
    (groups : List SequenceGroupMetadata) (m : AttentionMetadata)
    (hm : (prepare_model_input cfg groups).attn_metadata = some m) :
    m.query_start_loc.length = groups.length + 1
    ∧ m.query_start_loc.head? = some 0
    ∧ List.Chain' (· ≤ ·) m.query_start_loc
    ∧ m.query_start_loc.getLast? = some (sumList (groups.map groupQueryLen))
    ∧ ((∀ g ∈ groups, 1 ≤ g.seq_data.get_len) →
        List.Chain' (· < ·) m.query_start_loc) := by
  obtain rfl := attn_some_eq hm
  refine ⟨?_, startLocs_head? 0 _, startLocs_chain_le _ 0, ?_, ?_⟩
  · show (startLocs 0 (groups.map groupQueryLen)).length = groups.length + 1
    rw [startLocs_length, List.length_map]
  · show (startLocs 0 (groups.map groupQueryLen)).getLast? = _
    rw [startLocs_getLast?, Nat.zero_add]
  · intro h
    refine startLocs_chain_lt _ ?_ 0
    intro x hx
    rcases List.mem_map.mp hx with ⟨g, hg, rfl⟩
    cases hp : g.is_prompt <;> simp [groupQueryLen, hp]
    exact h g hg

theorem C5_witness :
    (decoderMetaD cfgEx [prefillEx]).query_start_loc.length = 2
    ∧ (decoderMetaD cfgEx [prefillEx]).query_start_loc.getLast? = some 3
    ∧ List.Chain' (· < ·) (decoderMetaD cfgEx [prefillEx]).query_start_loc := by
  have hm : (prepare_model_input cfgEx [prefillEx]).attn_metadata
      = some (decoderMetaD cfgEx [prefillEx]) := rfl
  have h := C5_query_start_loc cfgEx [prefillEx] _ hm
  refine ⟨h.1, ?_, h.2.2.2.2
    (fun g hg => by rw [List.mem_singleton.mp hg]; decide)⟩
  rw [h.2.2.2.1]
  rfl

/-- Claim C6: for every batch, the decoder slot-mapping array has exactly
one entry per flat batched token (its length equals the flat input-token
array length), and the cross-attention slot-mapping array has exactly
one entry per flat encoder token. -/
theorem C6_slot_mapping_lengths (cfg : RunnerConfig)
    (groups : List SequenceGroupMetadata) (m : AttentionMetadata)
    (hm : buildAttnMetadata cfg groups = some m) :
    (prepare_model_input cfg groups).slot_mapping.length
      = (prepare_model_input cfg groups).input_tokens.length
    ∧ m.cross_slot_mapping.length
      = (buildEncoderModelInput cfg groups).input_tokens.length := by
  obtain ⟨rfl, hne⟩ := buildAttnMetadata_some_eq hm
  constructor
  · rw [prepare_model_input_ne_nil_eq hne]
    show (decoderSlotMapping cfg groups).length
      = (decoderInputTokens groups).length
    unfold decoderSlotMapping decoderInputTokens
    rw [flatten_map_length, flatten_map_length]
    exact sumList_map_congr
      (fun g _ => groupSlotMapping_length cfg.block_size g)
  · rw [buildEncoderModelInput_eq hne]
    show ((groups.map (groupCrossSlotMapping cfg.block_size)).flatten).length
      = ((groups.map groupEncoderTokens).flatten).length
    rw [flatten_map_length, flatten_map_length]
    exact sumList_map_congr
      (fun g _ => groupCrossSlotMapping_length cfg.block_size g)

theorem C6_witness :
    (prepare_model_input cfgEx [prefillEx]).slot_mapping.length = 3
    ∧ (builtMetaD cfgEx [prefillEx]).cross_slot_mapping.length = 2 := by
  have hm : buildAttnMetadata cfgEx [prefillEx]
      = some (builtMetaD cfgEx [prefillEx]) := rfl
  have h := C6_slot_mapping_lengths cfgEx [prefillEx] _ hm
  exact ⟨by rw [h.1]; rfl, by rw [h.2]; rfl⟩

/-- Claim C7: for every prefill-only batch, the built metadata's maximum
prefill sequence length equals the maximum of the per-sequence lengths
and its maximum decode sequence length equals `0`; for every pure-decode
batch, the maximum decode sequence length equals the maximum of the
per-sequence lengths and the maximum prefill sequence length equals
`0`. -/
theorem C7_max_seq_lens (cfg : RunnerConfig)
    (groups : List SequenceGroupMetadata) (m : AttentionMetadata)
    (hm : (prepare_model_input cfg groups).attn_metadata = some m) :
    ((∀ g ∈ groups, g.is_prompt = true) →
      m.max_prefill_seq_len = maxList (groups.map groupSeqLen)
      ∧ m.max_decode_seq_len = 0)
    ∧ ((∀ g ∈ groups, g.is_prompt = false) →
      m.max_decode_seq_len = maxList (groups.map groupSeqLen)
      ∧ m.max_prefill_seq_len = 0) := by
  obtain rfl := attn_some_eq hm
  constructor
  · intro hp
    have h1 : groups.filter (fun g => g.is_prompt) = groups :=
      List.filter_eq_self.mpr hp
    have h2 : groups.filter (fun g => !g.is_prompt) = [] :=
      List.filter_eq_nil_iff.mpr (fun a ha => by simp [hp a ha])
    constructor
    · show maxList ((groups.filter (fun g => g.is_prompt)).map groupSeqLen) = _
      rw [h1]
    · show maxList ((groups.filter (fun g => !g.is_prompt)).map groupSeqLen) = 0
      rw [h2]
      rfl
  · intro hd
    have h1 : groups.filter (fun g => !g.is_prompt) = groups :=
      List.filter_eq_self.mpr (fun a ha => by simp [hd a ha])
    have h2 : groups.filter (fun g => g.is_prompt) = [] :=
      List.filter_eq_nil_iff.mpr (fun a ha => by simp [hd a ha])
    constructor
    · show maxList ((groups.filter (fun g => !g.is_prompt)).map groupSeqLen) = _
      rw [h1]
    · show maxList ((groups.filter (fun g => g.is_prompt)).map groupSeqLen) = 0
      rw [h2]
      rfl

theorem C7_witness :
    (decoderMetaD cfgEx [prefillEx]).max_prefill_seq_len = 3
    ∧ (decoderMetaD cfgEx [prefillEx]).max_decode_seq_len = 0
    ∧ (decoderMetaD cfgEx [decodeEx]).max_decode_seq_len = 3
    ∧ (decoderMetaD cfgEx [decodeEx]).max_prefill_seq_len = 0 := by
  have hmP : (prepare_model_input cfgEx [prefillEx]).attn_metadata
      = some (decoderMetaD cfgEx [prefillEx]) := rfl
  have hmD : (prepare_model_input cfgEx [decodeEx]).attn_metadata
      = some (decoderMetaD cfgEx [decodeEx]) := rfl
  have hP := (C7_max_seq_lens cfgEx [prefillEx] _ hmP).1
    (fun g hg => by rw [List.mem_singleton.mp hg]; rfl)
  have hD := (C7_max_seq_lens cfgEx [decodeEx] _ hmD).2
    (fun g hg => by rw [List.mem_singleton.mp hg]; rfl)
  exact ⟨by rw [hP.1]; rfl, hP.2, by rw [hD.1]; rfl, hD.2⟩

/-- Claim C10: for every prefill batch (no previously cached state is
modelled for prompts), the context length reported per sequence is `0`;
for every pure-decode batch it equals the sequence's total length minus
one (the already-cached tokens, excluding the token decoded this
step). -/
theorem C10_context_lens (cfg : RunnerConfig)
    (groups : List SequenceGroupMetadata) (m : AttentionMetadata)
    (hm : (prepare_model_input cfg groups).attn_metadata = some m) :
    ((∀ g ∈ groups, g.is_prompt = true) → ∀ c ∈ m.context_lens, c = 0)
    ∧ ((∀ g ∈ groups, g.is_prompt = false) →
      m.context_lens = groups.map (fun g => g.seq_data.get_len - 1)) := by
  obtain rfl := attn_some_eq hm
  constructor
  · intro hp c hc
    rcases List.mem_map.mp hc with ⟨g, hg, rfl⟩
    simp [groupContextLen, hp g hg]
  · intro hd
    exact List.map_congr_left
      (fun g hg => by simp [groupContextLen, hd g hg])

theorem C10_witness :
    (decoderMetaD cfgEx [prefillEx]).context_lens.headD 1 = 0
    ∧ (decoderMetaD cfgEx [decodeEx]).context_lens = [2] := by
  have hmP : (prepare_model_input cfgEx [prefillEx]).attn_metadata
      = some (decoderMetaD cfgEx [prefillEx]) := rfl
  have hmD : (prepare_model_input cfgEx [decodeEx]).attn_metadata
      = some (decoderMetaD cfgEx [decodeEx]) := rfl
  have hP := (C10_context_lens cfgEx [prefillEx] _ hmP).1
    (fun g hg => by rw [List.mem_singleton.mp hg]; rfl)
  have hD := (C10_context_lens cfgEx [decodeEx] _ hmD).2
    (fun g hg => by rw [List.mem_singleton.mp hg]; rfl)
  exact ⟨hP _ (by decide), by rw [hD]; rfl⟩

/-- Claim C8: for every batch of encoder-decoder groups, in both prefill
and decode phases, the built metadata's encoder sequence-length list
equals the per-group encoder lengths in admitted order, the total
encoder token count equals their sum, and the maximum encoder sequence
length equals their maximum. -/
theorem C8_encoder_stats (cfg : RunnerConfig)
    (groups : List SequenceGroupMetadata) (m : AttentionMetadata)
    (hm : buildAttnMetadata cfg groups = some m)
    (hed : ∀ g ∈ groups, g.encoder_seq_data.isSome = true) :
    m.encoder_seq_lens
      = groups.map (fun g => (g.encoder_seq_data.getD ⟨[]⟩).get_len)
    ∧ m.num_encoder_tokens
      = sumList (groups.map (fun g => (g.encoder_seq_data.getD ⟨[]⟩).get_len))
    ∧ m.max_encoder_seq_len
      = maxList (groups.map (fun g => (g.encoder_seq_data.getD ⟨[]⟩).get_len)) := by
  obtain ⟨rfl, -⟩ := buildAttnMetadata_some_eq hm
  have hmap : groups.map groupEncoderSeqLen
      = groups.map (fun g => (g.encoder_seq_data.getD ⟨[]⟩).get_len) := by
    refine List.map_congr_left (fun g hg => ?_)
    cases ho : g.encoder_seq_data with
    | none =>
      have h' := hed g hg
      rw [ho] at h'
      simp at h'
    | some d => simp [groupEncoderSeqLen, ho]
  refine ⟨?_, ?_, ?_⟩
  · show groups.map groupEncoderSeqLen = _
    rw [hmap]
  · show sumList (groups.map groupEncoderSeqLen) = _
    rw [hmap]
  · show maxList (groups.map groupEncoderSeqLen) = _
    rw [hmap]

theorem C8_witness :
    (builtMetaD cfgEx [prefillEx]).encoder_seq_lens = [2]
    ∧ (builtMetaD cfgEx [prefillEx]).num_encoder_tokens = 2
    ∧ (builtMetaD cfgEx [prefillEx]).max_encoder_seq_len = 2 := by
  have hm : buildAttnMetadata cfgEx [prefillEx]
      = some (builtMetaD cfgEx [prefillEx]) := rfl
  have h := C8_encoder_stats cfgEx [prefillEx] _ hm
    (fun g hg => by rw [List.mem_singleton.mp hg]; rfl)
  exact ⟨by rw [h.1]; rfl, by rw [h.2.1]; rfl, by rw [h.2.2]; rfl⟩

/-- Claim C9: for every pure-decode batch of encoder-decoder groups, the
encoder input-token and input-position arrays are empty even though the
encoder sequence-length metadata still reports each group's full encoder
length; in a prefill batch the encoder input-token array length equals
the sum of the encoder lengths. -/
theorem C9_encoder_inputs (cfg : RunnerConfig)
    (groups : List SequenceGroupMetadata) (m : AttentionMetadata)
    (hm : buildAttnMetadata cfg groups = some m)
    (hed : ∀ g ∈ groups, g.encoder_seq_data.isSome = true) :
    ((∀ g ∈ groups, g.is_prompt = false) →
      (buildEncoderModelInput cfg groups).input_tokens = []
      ∧ (buildEncoderModelInput cfg groups).input_positions = []
      ∧ m.encoder_seq_lens = groups.map groupEncoderSeqLen)
    ∧ ((∀ g ∈ groups, g.is_prompt = true) →
      (buildEncoderModelInput cfg groups).input_tokens.length
        = sumList (groups.map groupEncoderSeqLen)) := by
  obtain ⟨rfl, hne⟩ := buildAttnMetadata_some_eq hm
  rw [buildEncoderModelInput_eq hne]
  constructor
  · intro hd
    refine ⟨?_, ?_, rfl⟩
    · show (groups.map groupEncoderTokens).flatten = []
      exact flatten_map_eq_nil _ _
        (fun g hg => by simp [groupEncoderTokens, hd g hg])
    · show (groups.map groupEncoderPositions).flatten = []
      exact flatten_map_eq_nil _ _
        (fun g hg => by simp [groupEncoderPositions, hd g hg])
  · intro hp
    show ((groups.map groupEncoderTokens).flatten).length = _
    rw [flatten_map_length]
    refine sumList_map_congr (fun g hg => ?_)
    cases ho : g.encoder_seq_data with
    | none =>
      have h' := hed g hg
      rw [ho] at h'
      simp at h'
    | some d =>
      simp [groupEncoderTokens, groupEncoderSeqLen, hp g hg, ho,
        SequenceData.get_len]

theorem C9_witness :
    (buildEncoderModelInput cfgEx [decodeEx]).input_tokens = []
    ∧ (buildEncoderModelInput cfgEx [decodeEx]).input_positions = []
    ∧ (buildEncoderModelInput cfgEx [prefillEx]).input_tokens.length = 2 := by
  have hmD : buildAttnMetadata cfgEx [decodeEx]
      = some (builtMetaD cfgEx [decodeEx]) := rfl
  have hmP : buildAttnMetadata cfgEx [prefillEx]
      = some (builtMetaD cfgEx [prefillEx]) := rfl
  have hD := (C9_encoder_inputs cfgEx [decodeEx] _ hmD
    (fun g hg => by rw [List.mem_singleton.mp hg]; rfl)).1
    (fun g hg => by rw [List.mem_singleton.mp hg]; rfl)
  have hP := (C9_encoder_inputs cfgEx [prefillEx] _ hmP
    (fun g hg => by rw [List.mem_singleton.mp hg]; rfl)).2
    (fun g hg => by rw [List.mem_singleton.mp hg]; rfl)
  exact ⟨hD.1, hD.2.1, by rw [hP]; rfl⟩

/-- Claim C2 (amended): for every batch in which all admitted groups are
encoder-decoder groups, if the batch is pure-decode then the
cross-attention block table has width equal to the widest cross block
table among the admitted groups, with shorter rows padded with zeros;
if the batch is prefill then every row of the cross-attention block
table is empty, regardless of the groups' cross block tables. -/
theorem C2_cross_block_tables (cfg : RunnerConfig)
    (groups : List SequenceGroupMetadata) (m : AttentionMetadata)
    (hm : buildAttnMetadata cfg groups = some m)
    (_hed : ∀ g ∈ groups, g.cross_block_table.isSome = true) :
    ((∀ g ∈ groups, g.is_prompt = false) →
      (∀ row ∈ m.cross_block_tables,
        row.length
          = maxList (groups.map (fun g => (g.cross_block_table.getD []).length)))
      ∧ m.cross_block_tables
        = groups.map (fun g => g.cross_block_table.getD []
            ++ List.replicate
              (maxList (groups.map (fun g => (g.cross_block_table.getD []).length))
                - (g.cross_block_table.getD []).length) 0))
    ∧ ((∀ g ∈ groups, g.is_prompt = true) →
      ∀ row ∈ m.cross_block_tables, row = []) := by
  obtain ⟨rfl, hne⟩ := buildAttnMetadata_some_eq hm
  have hproj : (prepare_encoder_model_input cfg groups
        (buildDecoderMeta cfg groups)).2.cross_block_tables
      = padRows (groups.map groupCrossBlockTableRow) := rfl
  rw [hproj]
  constructor
  · intro hd
    have hrows : groups.map groupCrossBlockTableRow
        = groups.map (fun g => g.cross_block_table.getD []) :=
      List.map_congr_left
        (fun g hg => by simp [groupCrossBlockTableRow, hd g hg])
    have hW : maxRowLen (groups.map groupCrossBlockTableRow)
        = maxList (groups.map (fun g => (g.cross_block_table.getD []).length)) := by
      unfold maxRowLen
      rw [hrows, List.map_map]
      rfl
    constructor
    · intro row hrow
      rw [mem_padRows_length hrow, hW]
    · unfold padRows
      rw [hW, hrows, List.map_map]
      rfl
  · intro hp row hrow
    have hW0 : maxRowLen (groups.map groupCrossBlockTableRow) = 0 := by
      unfold maxRowLen
      apply maxList_eq_zero
      intro x hx
      rcases List.mem_map.mp hx with ⟨r, hr, rfl⟩
      rcases List.mem_map.mp hr with ⟨g, hg, rfl⟩
      simp [groupCrossBlockTableRow, hp g hg]
    unfold padRows at hrow
    rcases List.mem_map.mp hrow with ⟨r, hr, rfl⟩
    rcases List.mem_map.mp hr with ⟨g, hg, rfl⟩
    simp [groupCrossBlockTableRow, hp g hg, hW0]

theorem C2_witness :
    (builtMetaD cfgEx [decodeEx]).cross_block_tables = [[2]] := by
  have hm : buildAttnMetadata cfgEx [decodeEx]
      = some (builtMetaD cfgEx [decodeEx]) := rfl
  have h := (C2_cross_block_tables cfgEx [decodeEx] _ hm
    (fun g hg => by rw [List.mem_singleton.mp hg]; rfl)).1
    (fun g hg => by rw [List.mem_singleton.mp hg]; rfl)
  rw [h.2]
  rfl

/-- Counterexample to claim C2 as stated: a prefill batch of one
encoder-decoder group whose cross block table is `[2]` (width 1, the
widest in the batch) yields a cross-attention block table whose single
row has width 0, not width 1. -/
theorem C2_counterexample :
    (buildAttnMetadata cfgEx [prefillEx]).map
        (fun m => m.cross_block_tables.map List.length) = some [0]
    ∧ [prefillEx].map (fun g => (g.cross_block_table.getD []).length) = [1] :=
  ⟨rfl, rfl⟩

end VllmEncDec
